import Mathlib

/-!
Verification of the enviroagent article-curation pipeline.

This file gives a shallow embedding of the Python sources
(`src/rl_agent.py`, `src/summary_agent.py`, `src/prompt_updater.py`,
`src/prompt_agent.py`, `src/gdelt_pipeline.py`, `main.py`) and proves or
refutes the spec's claims about them.

Modelling conventions:
* JSON values are the inductive `JValue`; Python dicts built from JSON are
  association lists with no duplicate keys (the parser collapses duplicates
  with last-wins assignment, exactly as Python's `json.loads` does when it
  builds a `dict`).
* Python numbers are modelled as rationals.  The JSON constants
  `NaN`/`Infinity`/`-Infinity` (accepted by Python's lenient default) have
  no rational value and are treated as parse failures; no claim exercises
  them.
* Exceptions are modelled with `Except PyError`; an uncaught Python
  exception is the `.error` branch.
* The filesystem is a map from path to parsed file content; the external
  LLM collaborators are oracles passed in as functions.
-/

namespace Enviroagent

/-- A parsed JSON value (the result of Python `json.loads`). -/
inductive JValue where
  | jnull
  | jbool (b : Bool)
  | jnum (q : ℚ)
  | jstr (s : String)
  | jarr (xs : List JValue)
  | jobj (kvs : List (String × JValue))

/-- A Python dict holding JSON data, e.g. one article record. -/
abbrev PyDict := List (String × JValue)

/-- Python `d[k] = v`: overwrite the value in place if the key exists
(keeping its position, as Python dicts do), else append the new key. -/
def setKey : PyDict → String → JValue → PyDict
  | [], k, v => [(k, v)]
  | (k', v') :: rest, k, v =>
      if k' = k then (k, v) :: rest else (k', v') :: setKey rest k v

/-- Python `d.get(k)`: `None`-as-`Option` lookup. -/
def dictFind (d : PyDict) (k : String) : Option JValue :=
  (d.find? (fun p => p.1 == k)).map (·.2)

/-- Python `d.get(k, default)`. -/
def dictGet (d : PyDict) (k : String) (dflt : JValue) : JValue :=
  (dictFind d k).getD dflt

/-- Python `k in d`. -/
def containsKey (d : PyDict) (k : String) : Bool :=
  (dictFind d k).isSome

/-- Characters stripped by Python `str.strip()` with no argument
(the ASCII whitespace set; the claims use no exotic Unicode spaces). -/
def pyWsChar (c : Char) : Bool :=
  c == ' ' || c == '\t' || c == '\n' || c == '\r' || c == '\x0b' || c == '\x0c'

/-- Python `str.strip(chars)` on a character list: drop characters
satisfying `p` from both ends. -/
def pyStrip (p : Char → Bool) (cs : List Char) : List Char :=
  ((cs.dropWhile p).reverse.dropWhile p).reverse

/-! ### A model of Python `json.loads` (strict mode)

Recursive descent over the character list, made total by a fuel counter.
Mirrors Python's `json` module: optional surrounding whitespace, objects,
arrays, strings with the standard escapes (raw control characters are
rejected, as in strict mode), numbers in the JSON grammar, `true`,
`false`, `null`.  Duplicate object keys are collapsed last-wins.
-/

/-- JSON insignificant whitespace (space, tab, newline, carriage return). -/
def jsonWs (c : Char) : Bool :=
  c == ' ' || c == '\t' || c == '\n' || c == '\r'

def isDigitCh (c : Char) : Bool := 48 ≤ c.toNat && c.toNat ≤ 57

/-- Split off the maximal leading run of decimal digits. -/
def takeDigits (cs : List Char) : List Char × List Char :=
  (cs.takeWhile isDigitCh, cs.dropWhile isDigitCh)

def digitsValAux (acc : Nat) : List Char → Nat
  | [] => acc
  | c :: cs => digitsValAux (10 * acc + (c.toNat - 48)) cs

/-- The numeric value of a run of decimal digits. -/
def digitsVal (ds : List Char) : Nat := digitsValAux 0 ds

def hexDigitVal (c : Char) : Option Nat :=
  let n := c.toNat
  if 48 ≤ n ∧ n ≤ 57 then some (n - 48)
  else if 97 ≤ n ∧ n ≤ 102 then some (n - 87)
  else if 65 ≤ n ∧ n ≤ 70 then some (n - 55)
  else none

def simpleEscape : Char → Option Char
  | '"' => some '"'
  | '\\' => some '\\'
  | '/' => some '/'
  | 'b' => some '\x08'
  | 'f' => some '\x0c'
  | 'n' => some '\n'
  | 'r' => some '\r'
  | 't' => some '\t'
  | _ => none

/-- Parse the body of a JSON string after the opening quote.  Fuel makes
the recursion structural. -/
def parseJsonStr (fuel : Nat) (acc : List Char) : List Char → Option (String × List Char) :=
  match fuel with
  | 0 => fun _ => none
  | fuel + 1 => fun cs =>
    match cs with
    | [] => none
    | '"' :: rest => some (⟨acc.reverse⟩, rest)
    | '\\' :: 'u' :: a :: b :: c :: d :: rest =>
        match hexDigitVal a, hexDigitVal b, hexDigitVal c, hexDigitVal d with
        | some va, some vb, some vc, some vd =>
            let n := ((va * 16 + vb) * 16 + vc) * 16 + vd
            parseJsonStr fuel (Char.ofNat n :: acc) rest
        | _, _, _, _ => none
    | '\\' :: e :: rest =>
        match simpleEscape e with
        | some ch => parseJsonStr fuel (ch :: acc) rest
        | none => none
    | c :: rest =>
        if c.toNat < 0x20 then none else parseJsonStr fuel (c :: acc) rest

/-- Leading minus sign of a numeral: whether one is present, and the text
after it. -/
def minusSplit : List Char → Bool × List Char
  | '-' :: tl => (true, tl)
  | other => (false, other)

/-- A fraction part `.<digits>`: its digits, the remainder, and whether a
dot was present. -/
def fracSplit : List Char → List Char × List Char × Bool
  | '.' :: tl => ((takeDigits tl).1, (takeDigits tl).2, true)
  | other => ([], other, false)

/-- An exponent part `[eE][+-]?<digits>`: its sign, digits, the
remainder, and whether a marker was present. -/
def expSplit : List Char → ℤ × List Char × List Char × Bool
  | 'e' :: '+' :: tl | 'E' :: '+' :: tl => (1, (takeDigits tl).1, (takeDigits tl).2, true)
  | 'e' :: '-' :: tl | 'E' :: '-' :: tl => (-1, (takeDigits tl).1, (takeDigits tl).2, true)
  | 'e' :: tl | 'E' :: tl => (1, (takeDigits tl).1, (takeDigits tl).2, true)
  | other => (1, [], other, false)

/-- The rational value of a parsed numeral `[-]int[.frac][e exp]`.  When
neither a fraction nor an exponent is present the value is built without
field operations (same value as the general formula). -/
def numeralVal (neg : Bool) (intDs fracDs : List Char) (esgn : ℤ) (expDs : List Char) : ℚ :=
  if fracDs.isEmpty ∧ expDs.isEmpty then
    if neg then -(digitsVal intDs : ℚ) else (digitsVal intDs : ℚ)
  else
    let mant : ℚ :=
      (digitsVal intDs : ℚ) + (digitsVal fracDs : ℚ) / (10 : ℚ) ^ fracDs.length
    (if neg then -mant else mant) * (10 : ℚ) ^ (esgn * (digitsVal expDs : ℤ))

/-- Parse a JSON number (grammar `-?(0|[1-9][0-9]*)(.[0-9]+)?([eE][+-]?[0-9]+)?`),
returning its exact rational value. -/
def parseJsonNum (cs : List Char) : Option (ℚ × List Char) :=
  let sgn := minusSplit cs
  let ip := takeDigits sgn.2
  match ip.1 with
  | [] => none
  | d0 :: drest =>
    if d0 = '0' ∧ drest ≠ [] then none
    else
      let fp := fracSplit ip.2
      if fp.2.2 ∧ fp.1.isEmpty then none
      else
        let ep := expSplit fp.2.1
        if ep.2.2.2 ∧ ep.2.1.isEmpty then none
        else some (numeralVal sgn.1 ip.1 fp.1 ep.1 ep.2.1, ep.2.2.1)

mutual

/-- Parse one JSON value; fuel bounds the recursion depth. -/
def parseJsonVal (fuel : Nat) (cs : List Char) : Option (JValue × List Char) :=
  match fuel with
  | 0 => none
  | fuel + 1 =>
    match cs with
    | [] => none
    | 't' :: 'r' :: 'u' :: 'e' :: rest => some (.jbool true, rest)
    | 'f' :: 'a' :: 'l' :: 's' :: 'e' :: rest => some (.jbool false, rest)
    | 'n' :: 'u' :: 'l' :: 'l' :: rest => some (.jnull, rest)
    | '"' :: rest =>
        (parseJsonStr fuel [] rest).map (fun (s, r) => (.jstr s, r))
    | '\x7b' :: rest =>
        let rest1 := rest.dropWhile jsonWs
        match rest1 with
        | '\x7d' :: r => some (.jobj [], r)
        | _ => parseJsonMembers fuel [] rest1
    | '[' :: rest =>
        let rest1 := rest.dropWhile jsonWs
        match rest1 with
        | ']' :: r => some (.jarr [], r)
        | _ => parseJsonItems fuel [] rest1
    | c :: _ =>
        if c = '-' ∨ isDigitCh c then
          (parseJsonNum cs).map (fun (q, r) => (.jnum q, r))
        else none

/-- Parse the members of a JSON object, accumulating Python-dict style
(last duplicate key wins, position of the first kept). -/
def parseJsonMembers (fuel : Nat) (acc : PyDict) (cs : List Char) : Option (JValue × List Char) :=
  match fuel with
  | 0 => none
  | fuel + 1 =>
    match cs with
    | '"' :: rest =>
      match parseJsonStr fuel [] rest with
      | none => none
      | some (k, r1) =>
        match r1.dropWhile jsonWs with
        | ':' :: r2 =>
          match parseJsonVal fuel (r2.dropWhile jsonWs) with
          | none => none
          | some (v, r3) =>
            let acc' := setKey acc k v
            match r3.dropWhile jsonWs with
            | ',' :: r4 => parseJsonMembers fuel acc' (r4.dropWhile jsonWs)
            | '\x7d' :: r4 => some (.jobj acc', r4)
            | _ => none
        | _ => none
    | _ => none

/-- Parse the items of a JSON array. -/
def parseJsonItems (fuel : Nat) (acc : List JValue) (cs : List Char) : Option (JValue × List Char) :=
  match fuel with
  | 0 => none
  | fuel + 1 =>
    match parseJsonVal fuel cs with
    | none => none
    | some (v, r1) =>
      match r1.dropWhile jsonWs with
      | ',' :: r2 => parseJsonItems fuel (acc ++ [v]) (r2.dropWhile jsonWs)
      | ']' :: r2 => some (.jarr (acc ++ [v]), r2)
      | _ => none

end

/-- Model of Python `json.loads`: parse the whole string as one JSON value
with only surrounding whitespace allowed; `none` is a raised
`JSONDecodeError`. -/
def json_loads (s : String) : Option JValue :=
  let cs := s.data.dropWhile jsonWs
  match parseJsonVal (s.data.length + 1) cs with
  | none => none
  | some (v, rest) => if rest.dropWhile jsonWs = [] then some v else none

/-! ### Scoring Orchestrator (src/rl_agent.py) -/

/-- Uncaught Python exceptions relevant to the pipeline. -/
inductive PyError where
  | attributeError (msg : String)
  | nameError (n : String)
  | fileNotFoundError
deriving DecidableEq

/-- Steps 2–3 of the response recovery protocol (run_simulation lines
133–144): after whitespace stripping and fence stripping, the regex
search for `({.*})` with DOTALL — which matches from the first opening
brace that precedes the last closing brace, up to that last closing
brace — or no match at all. -/
def braceMatch (t : List Char) : Option (List Char) :=
  if t.contains '\x7d' then
    let p := (t.reverse.dropWhile (fun c => c ≠ '\x7d')).reverse
    let m := p.dropWhile (fun c => c ≠ '\x7b')
    if m.isEmpty then none else some m
  else none

/-- Lines 133–144: strip surrounding whitespace, strip markdown fence
backquotes when the text starts with three of them, then take the regex
match as the candidate payload, else the whole string. -/
def extractCandidate (s : String) : String :=
  let t := pyStrip pyWsChar s.data
  let t :=
    if ['\x60', '\x60', '\x60'].isPrefixOf t then
      pyStrip pyWsChar (pyStrip (· == '\x60') t)
    else t
  match braceMatch t with
  | some m => ⟨m⟩
  | none => ⟨t⟩

/-- Line 149: the fallback verdict substituted when parsing raises. -/
def fallbackKvs : PyDict :=
  [("tweet_worthiness", .jnum 0), ("summary", .jstr "Could not evaluate article.")]

def fallbackAction : JValue := .jobj fallbackKvs

/-- Lines 123–149, the try block: candidate extraction and `json.loads`,
with the fallback verdict substituted when the parse raises. -/
def parsedAction (resp : String) : JValue :=
  match json_loads (extractCandidate resp) with
  | some v => v
  | none => fallbackAction

/-- Lines 151–153, outside the try block: `action.get("tweet_worthiness", 0)`
and `action.get("summary", "No summary provided")` merged into the
record.  When the parsed action is not a dict (the candidate parsed as a
number, string, array, …), `.get` raises an uncaught AttributeError. -/
def mergeRecord (a : PyDict) (kvs : PyDict) : PyDict :=
  setKey (setKey a "tweet_worthiness" (dictGet kvs "tweet_worthiness" (.jnum 0)))
    "summary" (dictGet kvs "summary" (.jstr "No summary provided"))

def mergeVerdict (a : PyDict) (resp : String) : Except PyError PyDict :=
  match parsedAction resp with
  | .jobj kvs => .ok (mergeRecord a kvs)
  | _ => .error (.attributeError "get")

/-- The parsed action is a dict, so the merge on lines 152–153 does not
raise. -/
def parsesToDict (resp : String) : Prop :=
  ∃ kvs, parsedAction resp = JValue.jobj kvs

/-- The key/value pairs of the parsed action when it is a dict. -/
def actionKvs (resp : String) : PyDict :=
  match parsedAction resp with
  | .jobj kvs => kvs
  | _ => []

/-- The scored batch a completed run writes: record `i` of the input
merged with the verdict recovered from evaluator answer `i`. -/
def scoredBatch (responses : Nat → String) : Nat → List PyDict → List PyDict
  | _, [] => []
  | idx, a :: rest =>
      mergeRecord a (actionKvs (responses idx)) :: scoredBatch responses (idx + 1) rest

/-- The per-record loop of run_simulation (lines 120–157): for each
article, `get_agent_action` first reads the instruction file (lines
55–58 and 81: `get_agent_prompt` is invoked inside `get_agent_action`,
once per record, when the file exists) and then calls the evaluator;
the verdict merge follows.  Returns the scored list (or the first
uncaught error) with the number of evaluator calls and of
instruction-file reads made. -/
def scoreLoop (promptExists : Bool) (responses : Nat → String) :
    Nat → List PyDict → Except PyError (List PyDict) × Nat × Nat
  | _, [] => (.ok [], 0, 0)
  | idx, a :: rest =>
      match mergeVerdict a (responses idx) with
      | .error e => (.error e, 1, if promptExists then 1 else 0)
      | .ok a' =>
          ((scoreLoop promptExists responses (idx + 1) rest).1.map (a' :: ·),
           (scoreLoop promptExists responses (idx + 1) rest).2.1 + 1,
           (scoreLoop promptExists responses (idx + 1) rest).2.2 +
             if promptExists then 1 else 0)

/-- The filesystem: maps a path to the parsed JSON array it holds. -/
def FS : Type := String → Option (List PyDict)

def fsWrite (fs : FS) (path : String) (content : List PyDict) : FS :=
  fun p => if p = path then some content else fs p

/-- Outcome of one scoring run: the filesystem afterwards, how many
evaluator calls and instruction-file reads were made, and the uncaught
exception if one escaped. -/
structure SimResult where
  fs : FS
  evalCalls : Nat
  promptReads : Nat
  err : Option PyError

/-- run_simulation (lines 92–167): skip when the output file already
exists (lines 108–111), load the input (raising FileNotFoundError when
absent), return without writing on an empty batch (lines 114–116), run
the scoring loop, and write the scored batch once, after the loop
(lines 159–165). -/
def run_simulation (fs : FS) (promptExists : Bool) (responses : Nat → String)
    (input_file output_file : String) : SimResult :=
  if (fs output_file).isSome then
    ⟨fs, 0, 0, none⟩
  else
    match fs input_file with
    | none => ⟨fs, 0, 0, some .fileNotFoundError⟩
    | some articles =>
      if articles.isEmpty then ⟨fs, 0, 0, none⟩
      else
        match scoreLoop promptExists responses 0 articles with
        | (.ok scored, calls, reads) => ⟨fsWrite fs output_file scored, calls, reads, none⟩
        | (.error e, calls, reads) => ⟨fs, calls, reads, some e⟩

/-! ### Summary Stage deduplication (src/summary_agent.py lines 28–37) -/

/-- Python `str.lower()` (the titles in scope are ASCII). -/
def pyLower (s : String) : String := ⟨s.data.map Char.toLower⟩

/-- `article.get("title", "").strip().lower()` (line 33).  A non-string
title would raise AttributeError in the source; such records are outside
every claim and normalise to the empty string here (the theorems restrict
to string titles where it matters). -/
def normTitle (a : PyDict) : String :=
  match dictGet a "title" (.jstr "") with
  | .jstr s => pyLower ⟨pyStrip pyWsChar s.data⟩
  | _ => ""

/-- The loop of deduplicate_articles (lines 30–36): `seen` is the set of
normalised titles already kept; a record is kept only when its
normalised title is non-empty (`if title and …`) and not yet seen. -/
def dedupGo (seen : List String) : List PyDict → List PyDict
  | [] => []
  | a :: rest =>
      if normTitle a ≠ "" ∧ normTitle a ∉ seen then
        a :: dedupGo (normTitle a :: seen) rest
      else dedupGo seen rest

/-- deduplicate_articles (lines 28–37). -/
def deduplicate_articles (articles : List PyDict) : List PyDict :=
  dedupGo [] articles

/-! ### Feedback aggregation (src/prompt_updater.py lines 69–91) -/

/-- Python `float(x)` coercion on JSON data: numbers and booleans
coerce, strings are parsed by the float grammar, `None`/lists/dicts
raise TypeError.  The string constants `inf`/`infinity`/`nan` (accepted
by Python) have no rational value and yield `none` here; no claim
exercises them. -/
def parsePyFloatStr (s : String) : Option ℚ :=
  let trimmed := pyStrip pyWsChar s.data
  let sgn :=
    match trimmed with
    | '+' :: tl => (false, tl)
    | other => minusSplit other
  let ip := takeDigits sgn.2
  let fp := fracSplit ip.2
  if ip.1.isEmpty ∧ fp.1.isEmpty then none
  else
    let ep := expSplit fp.2.1
    if (ep.2.2.2 ∧ ep.2.1.isEmpty) ∨ ep.2.2.1 ≠ [] then none
    else some (numeralVal sgn.1 ip.1 fp.1 ep.1 ep.2.1)

def pyFloat : JValue → Option ℚ
  | .jnum q => some q
  | .jbool b => some (if b then 1 else 0)
  | .jstr s => parsePyFloatStr s
  | _ => none

/-- Round to the nearest integer, ties to even, as Python's fixed-point
formatting does (the aggregated values in scope are exact, so no binary
rounding intervenes; negative zero rendering is out of claim scope). -/
def roundHalfEven (q : ℚ) : ℤ :=
  let f := ⌊q⌋
  let r := q - f
  if r < 1 / 2 then f
  else if 1 / 2 < r then f + 1
  else if f % 2 = 0 then f else f + 1

/-- Python `f"{q:.{d}f}"` on an exact value. -/
def formatFixed (q : ℚ) (d : Nat) : String :=
  let n := roundHalfEven (q * (10 : ℚ) ^ d)
  let sign := if n < 0 then "-" else ""
  let m := n.natAbs
  if d = 0 then sign ++ toString m
  else
    let fpStr := toString (m % 10 ^ d)
    let pad := String.mk (List.replicate (d - fpStr.length) '0')
    sign ++ toString (m / 10 ^ d) ++ "." ++ pad ++ fpStr

/-- The text of a `user_reasoning` value as interpolated on line 78 (the
values in scope are strings). -/
def reasonText : JValue → String
  | .jstr s => s
  | _ => ""

/-- One feedback entry, line 78: `f"Score: {score:.1f} - {reasoning}"`. -/
def scoreLine (q : ℚ) (reasoning : JValue) : String :=
  "Score: " ++ formatFixed q 1 ++ " - " ++ reasonText reasoning

/-- Lines 69–78 of improve_prompt: keep records carrying both
`user_score` and `user_reasoning`; coerce the score with `float`,
skipping the record entirely (`continue`) when the coercion raises;
collect the surviving scores and their formatted feedback entries in
input order. -/
def extractFeedback : List PyDict → List ℚ × List String
  | [] => ([], [])
  | a :: rest =>
      if containsKey a "user_score" && containsKey a "user_reasoning" then
        match pyFloat (dictGet a "user_score" .jnull) with
        | some q =>
            (q :: (extractFeedback rest).1,
             scoreLine q (dictGet a "user_reasoning" .jnull) :: (extractFeedback rest).2)
        | none => extractFeedback rest
      else extractFeedback rest

/-- Line 84: the arithmetic mean of the surviving scores. -/
def avgScore (ss : List ℚ) : ℚ := ss.sum / ss.length

/-- Lines 87–91: the feedback document — the two-decimal mean followed by
one line per surviving record. -/
def feedbackSection (articles : List PyDict) : String :=
  "\n\n=== Human Feedback Integration ===\n"
    ++ "Average Human Score: " ++ formatFixed (avgScore (extractFeedback articles).1) 2 ++ "\n"
    ++ "Detailed Feedback:\n"
    ++ String.join ((extractFeedback articles).2.map (· ++ "\n"))

/-- improve_prompt (src/prompt_updater.py lines 69–123), the aggregation
slice the claims need: `none` is the "no usable feedback, no update"
outcome (lines 80–82); otherwise the new instruction text is the rewrite
collaborator's answer to the current prompt and the feedback document. -/
def improve_prompt (articles : List PyDict) (currentPrompt : String)
    (rewriteOracle : String → String → String) : Option String :=
  if (extractFeedback articles).1.isEmpty then none
  else some (rewriteOracle currentPrompt (feedbackSection articles))

/-! ### The update-instructions command (main.py lines 39–55, src/prompt_agent.py) -/

/-- improve_agent_prompt (src/prompt_agent.py lines 1–25).  The body's
only statement chain evaluates the name `chain`, which is defined
nowhere in that module (as are `original_prompt` and
`feedback_section`), so every call raises NameError before touching any
file. -/
def improve_agent_prompt (_generated_json_path : String)
    (_daily_dir : Option String) (_prompt_path : String) : Except PyError Bool :=
  .error (.nameError "chain")

/-- run_prompt_update (main.py lines 39–55): calls
`prompt_agent.improve_agent_prompt` (not `prompt_updater.improve_prompt`,
despite the comment on main.py lines 80–81) and prints the outcome; the
`.ok` value is the message printed on normal completion and `.error` an
exception that escapes the command. -/
def run_prompt_update (generated : String) (daily_dir : Option String)
    (prompt : String) : Except PyError String :=
  (improve_agent_prompt generated daily_dir prompt).map
    (fun updated =>
      if updated then "Prompt updated successfully." else "Failed to update prompt.")

/-! ### Fetch stage (src/gdelt_pipeline.py lines 26–88) -/

/-- One GeoJSON feature of the news-source response. -/
structure Feature where
  properties : PyDict
  geometry : JValue

/-- Python truthiness of a JSON value (`if not title_value`, line 63). -/
def pyTruthy : JValue → Bool
  | .jnull => false
  | .jbool b => b
  | .jnum q => q != 0
  | .jstr s => s ≠ ""
  | .jarr xs => !xs.isEmpty
  | .jobj kvs => !kvs.isEmpty

/-- `\s` of the title-attribute regex (line 65). -/
def reWsChar (c : Char) : Bool :=
  c == ' ' || c == '\t' || c == '\n' || c == '\r' || c == '\x0b' || c == '\x0c'

/-- The regex `title\s*=\s*"([^"]+)"` anchored at the start of the text:
the literal `title`, optional whitespace, `=`, optional whitespace, a
quote, one or more non-quote characters (group 1), a closing quote. -/
def titleAttrAt (cs : List Char) : Option String :=
  match cs with
  | 't' :: 'i' :: 't' :: 'l' :: 'e' :: rest =>
      match rest.dropWhile reWsChar with
      | '=' :: r2 =>
          match r2.dropWhile reWsChar with
          | '"' :: r4 =>
              let content := r4.takeWhile (fun c => c ≠ '"')
              match r4.dropWhile (fun c => c ≠ '"') with
              | '"' :: _ => if content.isEmpty then none else some ⟨content⟩
              | _ => none
          | _ => none
      | _ => none
  | _ => none

/-- `re.search` of the title regex (line 65): leftmost match wins. -/
def findTitleAttr : List Char → Option String
  | [] => none
  | c :: rest =>
      match titleAttrAt (c :: rest) with
      | some s => some s
      | none => findTitleAttr rest

/-- Lines 59–79: process one GeoJSON feature into an article record,
with the title fallback chain (explicit title if truthy, else the
HTML title attribute, else the name, else "N/A"). -/
def processFeature (f : Feature) : PyDict :=
  let html := match dictGet f.properties "html" (.jstr "") with
    | .jstr s => s
    | _ => ""
  let titleVal : Option JValue :=
    match dictFind f.properties "title" with
    | some v => if pyTruthy v then some v else none
    | none => none
  let title := match titleVal with
    | some v => v
    | none =>
        match findTitleAttr html.data with
        | some t => .jstr t
        | none => dictGet f.properties "name" (.jstr "N/A")
  [("title", title),
   ("name", dictGet f.properties "name" (.jstr "N/A")),
   ("count", dictGet f.properties "count" (.jstr "N/A")),
   ("shareimage", dictGet f.properties "shareimage" (.jstr "N/A")),
   ("html", .jstr html),
   ("geometry", f.geometry)]

/-- fetch_gdelt_articles (lines 26–88), response handling: a failed or
empty response yields `[]` (lines 83–88); a successful GeoJSON response
has only its first 10 features processed (`features[:10]`, line 58),
whatever record cap (`maxrecords`) was sent in the query parameters —
the cap only parameterises the outbound request. -/
def fetch_gdelt_articles (_maxrecords : JValue) (response : Option (List Feature)) :
    List PyDict :=
  match response with
  | none => []
  | some features => (features.take 10).map processFeature

/-! ### Dictionary lemmas -/

theorem dictFind_setKey_self (d : PyDict) (k : String) (v : JValue) :
    dictFind (setKey d k v) k = some v := by
  induction d with
  | nil => simp [setKey, dictFind, List.find?]
  | cons p rest ih =>
      obtain ⟨k', v'⟩ := p
      by_cases h : k' = k
      · simp [setKey, h, dictFind, List.find?]
      · simpa [setKey, h, dictFind, List.find?] using ih

theorem dictFind_setKey_ne (d : PyDict) (k k' : String) (v : JValue) (h : k' ≠ k) :
    dictFind (setKey d k v) k' = dictFind d k' := by
  have hkk : (k == k') = false := by
    simp only [beq_eq_false_iff_ne]
    exact fun hh => h hh.symm
  induction d with
  | nil => simp [setKey, dictFind, List.find?, hkk]
  | cons p rest ih =>
      obtain ⟨k₀, v₀⟩ := p
      by_cases h₀ : k₀ = k
      · subst h₀
        simp [setKey, dictFind, List.find?, hkk]
      · by_cases h₁ : k₀ = k'
        · subst h₁
          simp [setKey, h₀, dictFind, List.find?]
        · have hne : (k₀ == k') = false := by
            simp only [beq_eq_false_iff_ne]
            exact h₁
          simpa [setKey, h₀, dictFind, List.find?, hne] using ih

theorem dictGet_setKey_self (d : PyDict) (k : String) (v dflt : JValue) :
    dictGet (setKey d k v) k dflt = v := by
  simp [dictGet, dictFind_setKey_self]

theorem dictGet_setKey_ne (d : PyDict) (k k' : String) (v dflt : JValue) (h : k' ≠ k) :
    dictGet (setKey d k v) k' dflt = dictGet d k' dflt := by
  simp [dictGet, dictFind_setKey_ne _ _ _ _ h]

theorem containsKey_setKey_self (d : PyDict) (k : String) (v : JValue) :
    containsKey (setKey d k v) k = true := by
  simp [containsKey, dictFind_setKey_self]

/-! ### Verdict-merge lemmas -/

theorem mergeRecord_tw (a kvs : PyDict) :
    dictGet (mergeRecord a kvs) "tweet_worthiness" .jnull =
      dictGet kvs "tweet_worthiness" (.jnum 0) := by
  unfold mergeRecord
  rw [dictGet_setKey_ne _ _ _ _ _ (by decide), dictGet_setKey_self]

theorem mergeRecord_summary (a kvs : PyDict) :
    dictGet (mergeRecord a kvs) "summary" .jnull =
      dictGet kvs "summary" (.jstr "No summary provided") := by
  unfold mergeRecord
  rw [dictGet_setKey_self]

theorem mergeRecord_has_keys (a kvs : PyDict) :
    containsKey (mergeRecord a kvs) "tweet_worthiness" = true ∧
    containsKey (mergeRecord a kvs) "summary" = true := by
  unfold mergeRecord
  constructor
  · simp [containsKey, dictFind_setKey_ne _ _ _ _ (by decide : "tweet_worthiness" ≠ "summary"),
      dictFind_setKey_self]
  · simp [containsKey, dictFind_setKey_self]

theorem mergeVerdict_of_dict (a : PyDict) (resp : String) (kvs : PyDict)
    (h : parsedAction resp = .jobj kvs) :
    mergeVerdict a resp = .ok (mergeRecord a kvs) := by
  simp [mergeVerdict, h]

theorem actionKvs_of_dict (resp : String) (kvs : PyDict)
    (h : parsedAction resp = .jobj kvs) : actionKvs resp = kvs := by
  simp [actionKvs, h]

theorem parsedAction_of_fail (resp : String)
    (h : json_loads (extractCandidate resp) = none) :
    parsedAction resp = .jobj fallbackKvs := by
  simp [parsedAction, h, fallbackAction]

/-! ### Scoring-loop lemmas -/

theorem scoredBatch_length (responses : Nat → String) :
    ∀ (l : List PyDict) (idx : Nat), (scoredBatch responses idx l).length = l.length
  | [], _ => rfl
  | _ :: rest, idx => by
      simp [scoredBatch, scoredBatch_length responses rest (idx + 1)]

theorem scoredBatch_getElem (responses : Nat → String) :
    ∀ (l : List PyDict) (idx i : Nat),
      (scoredBatch responses idx l)[i]? =
        (l[i]?).map (fun a => mergeRecord a (actionKvs (responses (idx + i))))
  | [], _, _ => by simp [scoredBatch]
  | a :: rest, idx, 0 => by simp [scoredBatch]
  | a :: rest, idx, i + 1 => by
      have h := scoredBatch_getElem responses rest (idx + 1) i
      simpa [scoredBatch, Nat.add_assoc, Nat.add_comm 1 i] using h

theorem scoredBatch_keys (responses : Nat → String) :
    ∀ (l : List PyDict) (idx : Nat), ∀ b ∈ scoredBatch responses idx l,
      containsKey b "tweet_worthiness" = true ∧ containsKey b "summary" = true
  | [], _ => by simp [scoredBatch]
  | a :: rest, idx => by
      intro b hb
      rcases List.mem_cons.mp hb with h | h
      · subst h; exact mergeRecord_has_keys _ _
      · exact scoredBatch_keys responses rest (idx + 1) b h

theorem scoreLoop_safe (p : Bool) (responses : Nat → String) :
    ∀ (l : List PyDict) (idx : Nat),
      (∀ i < l.length, parsesToDict (responses (idx + i))) →
      scoreLoop p responses idx l =
        (.ok (scoredBatch responses idx l), l.length, if p then l.length else 0)
  | [], idx, _ => by cases p <;> simp [scoreLoop, scoredBatch]
  | a :: rest, idx, hsafe => by
      obtain ⟨kvs, hk⟩ := by
        have h0 := hsafe 0 (by simp)
        simpa using h0
      have hrest : ∀ i < rest.length, parsesToDict (responses (idx + 1 + i)) := by
        intro i hi
        have := hsafe (i + 1) (by simpa using Nat.succ_lt_succ hi)
        have harith : idx + (i + 1) = idx + 1 + i := by omega
        rwa [harith] at this
      have ih := scoreLoop_safe p responses rest (idx + 1) hrest
      simp [scoreLoop, mergeVerdict_of_dict a (responses idx) kvs hk, ih, scoredBatch,
        actionKvs_of_dict (responses idx) kvs hk]
      cases p <;> simp [Except.map]

theorem scoreLoop_reads (p : Bool) (responses : Nat → String) :
    ∀ (l : List PyDict) (idx : Nat),
      (scoreLoop p responses idx l).2.2 =
        if p then (scoreLoop p responses idx l).2.1 else 0
  | [], idx => by cases p <;> simp [scoreLoop]
  | a :: rest, idx => by
      have ih := scoreLoop_reads p responses rest (idx + 1)
      cases hm : mergeVerdict a (responses idx) with
      | error e => cases p <;> simp [scoreLoop, hm]
      | ok a' => cases p <;> simp_all [scoreLoop, hm]

/-! ### run_simulation lemmas -/

theorem run_simulation_skip (fs : FS) (p : Bool) (responses : Nat → String)
    (inp out : String) (h : (fs out).isSome) :
    run_simulation fs p responses inp out = ⟨fs, 0, 0, none⟩ := by
  simp [run_simulation, h]

theorem run_simulation_complete (fs : FS) (p : Bool) (responses : Nat → String)
    (inp out : String) (articles : List PyDict)
    (hout : fs out = none) (hin : fs inp = some articles) (hne : articles ≠ [])
    (hsafe : ∀ i < articles.length, parsesToDict (responses i)) :
    run_simulation fs p responses inp out =
      ⟨fsWrite fs out (scoredBatch responses 0 articles), articles.length,
       if p then articles.length else 0, none⟩ := by
  have hloop := scoreLoop_safe p responses articles 0 (by simpa using hsafe)
  cases articles with
  | nil => exact absurd rfl hne
  | cons a rest => simp [run_simulation, hout, hin, List.isEmpty, hloop]

theorem run_simulation_err_unchanged (fs : FS) (p : Bool) (responses : Nat → String)
    (inp out : String) :
    (run_simulation fs p responses inp out).err.isSome →
    (run_simulation fs p responses inp out).fs = fs := by
  unfold run_simulation
  split
  · intro _; rfl
  · split
    · intro _; rfl
    · split
      · intro _; rfl
      · split
        · intro hh; simp at hh
        · intro _; rfl

theorem run_simulation_reads_per_call (fs : FS) (p : Bool) (responses : Nat → String)
    (inp out : String) :
    (run_simulation fs p responses inp out).promptReads =
      if p then (run_simulation fs p responses inp out).evalCalls else 0 := by
  unfold run_simulation
  split
  · cases p <;> rfl
  · split
    · cases p <;> rfl
    · next articles heq2 =>
        split
        · cases p <;> rfl
        · split
          next scored calls reads heq =>
            have h := scoreLoop_reads p responses articles 0
            rw [heq] at h
            simpa using h
          next e calls reads heq =>
            have h := scoreLoop_reads p responses articles 0
            rw [heq] at h
            simpa using h

/-! ### Deduplication lemmas -/

theorem dedupGo_sublist : ∀ (l : List PyDict) (seen : List String),
    (dedupGo seen l).Sublist l
  | [], _ => by simp [dedupGo]
  | a :: rest, seen => by
      unfold dedupGo
      split
      · exact (dedupGo_sublist rest _).cons₂ a
      · exact (dedupGo_sublist rest seen).cons a

theorem dedupGo_mem : ∀ (l : List PyDict) (seen : List String) (b : PyDict),
    b ∈ dedupGo seen l → normTitle b ≠ "" ∧ normTitle b ∉ seen
  | [], _, _ => by simp [dedupGo]
  | a :: rest, seen, b => by
      unfold dedupGo
      split
      · next hc =>
          intro hb
          rcases List.mem_cons.mp hb with h | h
          · subst h; exact hc
          · have := dedupGo_mem rest _ b h
            exact ⟨this.1, fun hs => this.2 (List.mem_cons_of_mem _ hs)⟩
      · exact fun hb => dedupGo_mem rest seen b hb

theorem dedupGo_first : ∀ (l : List PyDict) (seen : List String) (b : PyDict),
    b ∈ dedupGo seen l →
    l.find? (fun x => normTitle x == normTitle b) = some b
  | [], _, _ => by simp [dedupGo]
  | a :: rest, seen, b => by
      unfold dedupGo
      split
      · next hc =>
          intro hb
          rcases List.mem_cons.mp hb with h | h
          · subst h
            simp [List.find?]
          · have hmem := dedupGo_mem rest _ b h
            have hne : normTitle a ≠ normTitle b := by
              intro hcontra
              exact hmem.2 (by rw [← hcontra]; exact List.mem_cons_self _ _)
            have hbeq : (normTitle a == normTitle b) = false := by
              simp only [beq_eq_false_iff_ne]; exact hne
            simp [List.find?, hbeq]
            exact dedupGo_first rest _ b h
      · next hc =>
          intro hb
          have hmem := dedupGo_mem rest seen b hb
          have hne : normTitle a ≠ normTitle b := by
            rcases not_and_or.mp hc with h1 | h1
            · push_neg at h1
              rw [h1]
              exact fun hcontra => hmem.1 hcontra.symm
            · push_neg at h1
              exact fun hcontra => hmem.2 (hcontra ▸ h1)
          have hbeq : (normTitle a == normTitle b) = false := by
            simp only [beq_eq_false_iff_ne]; exact hne
          simp [List.find?, hbeq]
          exact dedupGo_first rest seen b hb

theorem dedupGo_pairwise : ∀ (l : List PyDict) (seen : List String),
    (dedupGo seen l).Pairwise (fun x y => normTitle x ≠ normTitle y)
  | [], _ => by simp [dedupGo]
  | a :: rest, seen => by
      unfold dedupGo
      split
      · refine List.Pairwise.cons ?_ (dedupGo_pairwise rest _)
        intro y hy
        have := dedupGo_mem rest _ y hy
        exact fun hcontra => this.2 (hcontra ▸ List.mem_cons_self _ _)
      · exact dedupGo_pairwise rest seen

theorem dedupGo_represented : ∀ (l : List PyDict) (seen : List String) (a : PyDict),
    a ∈ l → normTitle a ≠ "" → normTitle a ∉ seen →
    ∃ b ∈ dedupGo seen l, normTitle b = normTitle a
  | [], _, _ => by simp
  | hd :: rest, seen, a => by
      intro ha hne hseen
      by_cases hc : normTitle hd ≠ "" ∧ normTitle hd ∉ seen
      · by_cases heq : normTitle hd = normTitle a
        · exact ⟨hd, by simp [dedupGo, hc], heq⟩
        · rcases List.mem_cons.mp ha with h | h
          · exact absurd (h ▸ rfl) (Ne.symm heq ∘ Eq.symm)
          · have hseen' : normTitle a ∉ normTitle hd :: seen := by
              intro hmem
              rcases List.mem_cons.mp hmem with h1 | h1
              · exact heq h1.symm
              · exact hseen h1
            obtain ⟨b, hb, hbt⟩ := dedupGo_represented rest _ a h hne hseen'
            exact ⟨b, by simp [dedupGo, hc]; exact Or.inr hb, hbt⟩
      · rcases List.mem_cons.mp ha with h | h
        · subst h
          exact absurd ⟨hne, hseen⟩ hc
        · obtain ⟨b, hb, hbt⟩ := dedupGo_represented rest seen a h hne hseen
          refine ⟨b, ?_, hbt⟩
          simpa [dedupGo, hc] using hb

/-! ### Feedback-aggregation lemmas -/

/-- The per-record contribution of lines 71–78: the coerced score and
the formatted entry of a record that carries both feedback fields and a
coercible score; `none` when the record is skipped. -/
def feedbackOf (a : PyDict) : Option (ℚ × String) :=
  if containsKey a "user_score" && containsKey a "user_reasoning" then
    (pyFloat (dictGet a "user_score" .jnull)).map
      (fun q => (q, scoreLine q (dictGet a "user_reasoning" .jnull)))
  else none

theorem extractFeedback_eq_filterMap : ∀ l : List PyDict,
    (extractFeedback l).1 = l.filterMap (fun a => (feedbackOf a).map (·.1)) ∧
    (extractFeedback l).2 = l.filterMap (fun a => (feedbackOf a).map (·.2))
  | [] => by simp [extractFeedback]
  | a :: rest => by
      have ih := extractFeedback_eq_filterMap rest
      by_cases hc : (containsKey a "user_score" && containsKey a "user_reasoning") = true
      · rw [Bool.and_eq_true] at hc
        cases hq : pyFloat (dictGet a "user_score" .jnull) with
        | none =>
            simp [extractFeedback, hc.1, hc.2, hq, feedbackOf, List.filterMap_cons, ih.1, ih.2]
        | some q =>
            simp [extractFeedback, hc.1, hc.2, hq, feedbackOf, List.filterMap_cons, ih.1, ih.2]
      · rw [Bool.and_eq_true] at hc
        simp [extractFeedback, hc, feedbackOf, List.filterMap_cons, ih.1, ih.2]

theorem roundHalfEven_int (n : ℤ) : roundHalfEven ((n : ℚ)) = n := by
  unfold roundHalfEven
  norm_num

theorem formatFixed_seven : formatFixed 7 2 = "7.00" := by
  unfold formatFixed
  rw [show (7 : ℚ) * (10 : ℚ) ^ (2 : ℕ) = ((700 : ℤ) : ℚ) by norm_num,
    roundHalfEven_int]
  rfl

theorem formatFixed_six : formatFixed 6 1 = "6.0" := by
  unfold formatFixed
  rw [show (6 : ℚ) * (10 : ℚ) ^ (1 : ℕ) = ((60 : ℤ) : ℚ) by norm_num,
    roundHalfEven_int]
  rfl

theorem formatFixed_eight : formatFixed 8 1 = "8.0" := by
  unfold formatFixed
  rw [show (8 : ℚ) * (10 : ℚ) ^ (1 : ℕ) = ((80 : ℤ) : ℚ) by norm_num,
    roundHalfEven_int]
  rfl

theorem avgScore_six_eight : avgScore [6, 8] = 7 := by
  norm_num [avgScore, List.sum_cons, List.sum_nil]

/-! ### Concrete fixtures for the claim instances -/

def rawPath : String := "data/raw/gdelt_articles_2025-05-01.json"

def scoredPath : String := "data/scored/generated_scored_articles_2025-05-01.json"

/-- A store already holding a scored file for the date. -/
def fsDone : FS := fun pth => if pth = scoredPath then some [] else none

/-- A store holding one raw article and no scored file. -/
def fsOneRaw : FS :=
  fun pth => if pth = rawPath then some [[("title", JValue.jstr "t")]] else none

/-- A store holding two raw articles and no scored file. -/
def fsTwoRaw : FS := fun pth => if pth = rawPath then some [[], []] else none

def dedupExample : List PyDict :=
  [[("title", JValue.jstr "Flood Hits City")], [("title", JValue.jstr "flood hits city")],
   [("title", JValue.jstr "")], [("title", JValue.jstr "")]]

def feedbackExample : List PyDict :=
  [[("user_score", JValue.jnum 6), ("user_reasoning", JValue.jstr "too vague")],
   [("user_score", JValue.jnum 8), ("user_reasoning", JValue.jstr "timely")],
   [("user_score", JValue.jstr "x"), ("user_reasoning", JValue.jstr "not numeric")]]

def emptyFeature : Feature := ⟨[], .jnull⟩

def tenFeatures : List Feature := List.replicate 10 emptyFeature

/-! ### Claim C1 -/

/-- Claim C1: when the scored output file for the target date already
exists, `run_simulation` returns immediately — no evaluator call, no
instruction-file read, no file modified; consequently running the stage
again after a completed run is a no-op that leaves the scored file
exactly as the first run wrote it. -/
theorem scoring_skip_and_idempotent (fs : FS) (p : Bool) (responses : Nat → String)
    (inp out : String) :
    ((fs out).isSome →
      run_simulation fs p responses inp out = ⟨fs, 0, 0, none⟩) ∧
    (∀ (p' : Bool) (responses' : Nat → String),
      ((run_simulation fs p responses inp out).fs out).isSome →
      run_simulation (run_simulation fs p responses inp out).fs p' responses' inp out =
        ⟨(run_simulation fs p responses inp out).fs, 0, 0, none⟩) :=
  ⟨fun h => run_simulation_skip fs p responses inp out h,
   fun p' responses' h => run_simulation_skip _ p' responses' inp out h⟩

/-- Witness for C1 at concrete stores: a pre-existing scored file makes
the run a no-op, and a second run over a completed first run's store is
a no-op as well. -/
theorem scoring_skip_and_idempotent_witness :
    run_simulation fsDone true (fun _ => "resp") rawPath scoredPath = ⟨fsDone, 0, 0, none⟩ ∧
    run_simulation (run_simulation fsOneRaw true (fun _ => "\x7b\x7d") rawPath scoredPath).fs
        false (fun _ => "other") rawPath scoredPath =
      ⟨(run_simulation fsOneRaw true (fun _ => "\x7b\x7d") rawPath scoredPath).fs, 0, 0, none⟩ :=
  ⟨(scoring_skip_and_idempotent fsDone true (fun _ => "resp") rawPath scoredPath).1 rfl,
   (scoring_skip_and_idempotent fsOneRaw true (fun _ => "\x7b\x7d") rawPath scoredPath).2
     false (fun _ => "other") rfl⟩

/-! ### Claim C2 -/

/-- Counterexample to C2 as stated: on titles "Flood Hits City",
"flood hits city", "", "", the deduplicated set has exactly 1 entry —
not the claimed 3 — because `if title and title not in seen` drops every
record whose normalised title is empty. -/
theorem dedup_empty_titles_dropped_cex :
    (deduplicate_articles dedupExample).length = 1 ∧ (1 : Nat) ≠ 3 :=
  ⟨rfl, by decide⟩

/-- Claim C2 (amended): deduplication keeps the first record of each
distinct normalised non-empty title, drops every later record with the
same normalised title, and also drops every record whose title is empty
or missing: the output is a subsequence of the input whose members all
have non-empty normalised titles, pairwise distinct, each member is the
first input record bearing its normalised title, and every non-empty
normalised title of the input is represented. -/
theorem dedup_characterisation (l : List PyDict) :
    (deduplicate_articles l).Sublist l ∧
    (∀ b ∈ deduplicate_articles l, normTitle b ≠ "" ∧
      l.find? (fun x => normTitle x == normTitle b) = some b) ∧
    (deduplicate_articles l).Pairwise (fun x y => normTitle x ≠ normTitle y) ∧
    (∀ a ∈ l, normTitle a ≠ "" →
      ∃ b ∈ deduplicate_articles l, normTitle b = normTitle a) := by
  simp only [deduplicate_articles]
  refine ⟨dedupGo_sublist l [], ?_, dedupGo_pairwise l [], ?_⟩
  · intro b hb
    exact ⟨(dedupGo_mem l [] b hb).1, dedupGo_first l [] b hb⟩
  · intro a ha hne
    exact dedupGo_represented l [] a ha hne (List.not_mem_nil _)

/-- Witness for C2 (amended) on the example batch: the duplicated
non-empty title is represented in the deduplicated output. -/
theorem dedup_characterisation_witness :
    ∃ b ∈ deduplicate_articles dedupExample,
      normTitle b = normTitle [("title", JValue.jstr "flood hits city")] :=
  (dedup_characterisation dedupExample).2.2.2
    [("title", JValue.jstr "flood hits city")]
    (List.mem_cons_of_mem _ (List.mem_cons_self _ _)) (by decide)

/-! ### Claim C3 -/

/-- Counterexample to C3 as stated: an evaluator answer whose JSON
carries `tweet_worthiness` 11 is merged verbatim — the field is not
clamped to [0,10]. -/
theorem tweet_worthiness_unclamped_cex :
    mergeVerdict [] "\x7b\"tweet_worthiness\": 11, \"summary\": \"ok\"\x7d" =
      .ok [("tweet_worthiness", .jnum 11), ("summary", .jstr "ok")] ∧
    ¬ ((11 : ℚ) ≤ 10) :=
  ⟨rfl, by norm_num⟩

/-- Claim C3 (amended): the merged `tweet_worthiness` is exactly the
value found in the parsed JSON object (defaulting to 0 when the key is
absent), and it is 0 whenever parsing fails; no range check is applied,
so the field lies in [0,10] only when the evaluator's value does. -/
theorem tweet_worthiness_passthrough (a : PyDict) (resp : String) :
    (json_loads (extractCandidate resp) = none →
      mergeVerdict a resp = .ok (mergeRecord a fallbackKvs) ∧
      dictGet (mergeRecord a fallbackKvs) "tweet_worthiness" .jnull = .jnum 0) ∧
    (∀ kvs : PyDict, parsedAction resp = .jobj kvs →
      mergeVerdict a resp = .ok (mergeRecord a kvs) ∧
      dictGet (mergeRecord a kvs) "tweet_worthiness" .jnull =
        dictGet kvs "tweet_worthiness" (.jnum 0) ∧
      dictGet (mergeRecord a kvs) "summary" .jnull =
        dictGet kvs "summary" (.jstr "No summary provided")) := by
  constructor
  · intro h
    have hpa := parsedAction_of_fail resp h
    refine ⟨mergeVerdict_of_dict a resp fallbackKvs hpa, ?_⟩
    rw [mergeRecord_tw]
    rfl
  · intro kvs hk
    exact ⟨mergeVerdict_of_dict a resp kvs hk, mergeRecord_tw a kvs, mergeRecord_summary a kvs⟩

/-- Witness for C3 (amended) at a concrete in-range answer. -/
theorem tweet_worthiness_passthrough_witness :
    mergeVerdict [] "\x7b\"tweet_worthiness\": 4, \"summary\": \"s\"\x7d" =
      .ok (mergeRecord [] [("tweet_worthiness", JValue.jnum 4), ("summary", JValue.jstr "s")]) ∧
    dictGet (mergeRecord [] [("tweet_worthiness", JValue.jnum 4), ("summary", JValue.jstr "s")])
        "tweet_worthiness" .jnull =
      dictGet [("tweet_worthiness", JValue.jnum 4), ("summary", JValue.jstr "s")]
        "tweet_worthiness" (.jnum 0) ∧
    dictGet (mergeRecord [] [("tweet_worthiness", JValue.jnum 4), ("summary", JValue.jstr "s")])
        "summary" .jnull =
      dictGet [("tweet_worthiness", JValue.jnum 4), ("summary", JValue.jstr "s")]
        "summary" (.jstr "No summary provided") :=
  (tweet_worthiness_passthrough [] "\x7b\"tweet_worthiness\": 4, \"summary\": \"s\"\x7d").2
    [("tweet_worthiness", JValue.jnum 4), ("summary", JValue.jstr "s")] rfl

/-! ### Claim C4 -/

/-- Counterexample to C4 as stated: the answer "5" contains no parseable
JSON object, yet the merged record does not get the fallback verdict —
`json.loads` succeeds with the integer 5, `.get` on it raises an
AttributeError outside the try block, and the whole batch loop aborts. -/
theorem fallback_not_applied_cex :
    mergeVerdict [("title", JValue.jstr "t")] "5" = .error (.attributeError "get") ∧
    (scoreLoop true (fun _ => "5") 0 [[("title", JValue.jstr "t")]]).1 =
      .error (.attributeError "get") :=
  ⟨rfl, rfl⟩

/-- Claim C4 (amended): whenever `json.loads` on the candidate payload
raises — as for "no idea" — the merged record gets `tweet_worthiness` 0
and `summary` "Could not evaluate article." and the loop continues with
the remaining records; an answer whose candidate parses to a non-object
JSON value instead raises an uncaught AttributeError fatal to the
batch. -/
theorem fallback_on_unparseable (a : PyDict) (p : Bool) (responses : Nat → String)
    (idx : Nat) (rest : List PyDict) (resp : String)
    (h : json_loads (extractCandidate resp) = none) (hr : responses idx = resp) :
    mergeVerdict a resp = .ok (mergeRecord a fallbackKvs) ∧
    dictGet (mergeRecord a fallbackKvs) "tweet_worthiness" .jnull = .jnum 0 ∧
    dictGet (mergeRecord a fallbackKvs) "summary" .jnull =
      .jstr "Could not evaluate article." ∧
    (scoreLoop p responses idx (a :: rest)).1 =
      ((scoreLoop p responses (idx + 1) rest).1).map (mergeRecord a fallbackKvs :: ·) ∧
    (scoreLoop p responses idx (a :: rest)).2.1 =
      (scoreLoop p responses (idx + 1) rest).2.1 + 1 := by
  have hpa := parsedAction_of_fail resp h
  have hmv := mergeVerdict_of_dict a resp fallbackKvs hpa
  refine ⟨hmv, ?_, ?_, ?_, ?_⟩
  · rw [mergeRecord_tw]; rfl
  · rw [mergeRecord_summary]; rfl
  · simp [scoreLoop, hr, hmv]
  · simp [scoreLoop, hr, hmv]

/-- Witness for C4 (amended) at the answer "no idea". -/
theorem fallback_on_unparseable_witness :
    mergeVerdict [("title", JValue.jstr "t")] "no idea" =
      .ok (mergeRecord [("title", JValue.jstr "t")] fallbackKvs) ∧
    dictGet (mergeRecord [("title", JValue.jstr "t")] fallbackKvs) "summary" .jnull =
      .jstr "Could not evaluate article." := by
  have h := fallback_on_unparseable [("title", JValue.jstr "t")] true (fun _ => "no idea")
    0 [] "no idea" rfl rfl
  exact ⟨h.1, h.2.2.1⟩

/-! ### Claim C5 -/

/-- Counterexample to C5 as stated: a one-record batch whose evaluator
answer is "5" produces no output record at all — the run aborts with an
uncaught AttributeError and the scored file is never written. -/
theorem scoring_batch_aborted_cex :
    (run_simulation fsOneRaw true (fun _ => "5") rawPath scoredPath).err =
      some (.attributeError "get") ∧
    (run_simulation fsOneRaw true (fun _ => "5") rawPath scoredPath).fs scoredPath = none :=
  ⟨rfl, rfl⟩

/-- Claim C5 (amended): for a nonempty raw batch with the output file
absent, provided every evaluator answer's candidate payload either fails
JSON parsing or parses to a JSON object, the run completes writing
exactly one output record per input record, in input order, each with
both `tweet_worthiness` and `summary` set, touching no other path, and
the file is written only at the end — a run that aborts (as on an answer
parsing to a non-object JSON value) leaves the store untouched. -/
theorem scoring_batch_contract (fs : FS) (p : Bool) (responses : Nat → String)
    (inp out : String) (articles : List PyDict)
    (hout : fs out = none) (hin : fs inp = some articles) (hne : articles ≠ [])
    (hsafe : ∀ i < articles.length, parsesToDict (responses i)) :
    run_simulation fs p responses inp out =
      ⟨fsWrite fs out (scoredBatch responses 0 articles), articles.length,
       if p then articles.length else 0, none⟩ ∧
    fsWrite fs out (scoredBatch responses 0 articles) out =
      some (scoredBatch responses 0 articles) ∧
    (scoredBatch responses 0 articles).length = articles.length ∧
    (∀ i : Nat, (scoredBatch responses 0 articles)[i]? =
      (articles[i]?).map (fun a => mergeRecord a (actionKvs (responses i)))) ∧
    (∀ b ∈ scoredBatch responses 0 articles,
      containsKey b "tweet_worthiness" = true ∧ containsKey b "summary" = true) ∧
    (∀ pth, pth ≠ out → fsWrite fs out (scoredBatch responses 0 articles) pth = fs pth) ∧
    (∀ responses' : Nat → String,
      (run_simulation fs p responses' inp out).err.isSome →
      (run_simulation fs p responses' inp out).fs = fs) := by
  refine ⟨run_simulation_complete fs p responses inp out articles hout hin hne hsafe,
    by simp [fsWrite], scoredBatch_length responses articles 0, ?_,
    scoredBatch_keys responses articles 0, ?_, ?_⟩
  · intro i
    simpa using scoredBatch_getElem responses articles 0 i
  · intro pth h
    simp [fsWrite, h]
  · exact fun responses' => run_simulation_err_unchanged fs p responses' inp out

/-- Witness for C5 (amended): a one-record batch with the safe answer
"\x7b\x7d" completes and writes the merged record. -/
theorem scoring_batch_contract_witness :
    run_simulation fsOneRaw true (fun _ => "\x7b\x7d") rawPath scoredPath =
      ⟨fsWrite fsOneRaw scoredPath
         (scoredBatch (fun _ => "\x7b\x7d") 0 [[("title", JValue.jstr "t")]]),
       1, 1, none⟩ := by
  have h := (scoring_batch_contract fsOneRaw true (fun _ => "\x7b\x7d") rawPath scoredPath
    [[("title", JValue.jstr "t")]] rfl rfl (List.cons_ne_nil _ _) (fun _ _ => ⟨[], rfl⟩)).1
  simpa using h

/-! ### Claim C6 -/

/-- Claim C6: on the fenced evaluator answer, the recovery protocol
strips whitespace and the fence backquotes, extracts the substring from
the first opening brace to the last closing brace, and parses it as
JSON, yielding the verdict (9, "ok"), which the merge injects into the
record. -/
theorem recovery_heuristic_fenced :
    extractCandidate "```json\n\x7b\"tweet_worthiness\": 9, \"summary\": \"ok\"\x7d\n```" =
      "\x7b\"tweet_worthiness\": 9, \"summary\": \"ok\"\x7d" ∧
    parsedAction "```json\n\x7b\"tweet_worthiness\": 9, \"summary\": \"ok\"\x7d\n```" =
      .jobj [("tweet_worthiness", .jnum 9), ("summary", .jstr "ok")] ∧
    mergeVerdict [] "```json\n\x7b\"tweet_worthiness\": 9, \"summary\": \"ok\"\x7d\n```" =
      .ok [("tweet_worthiness", .jnum 9), ("summary", .jstr "ok")] :=
  ⟨rfl, rfl, rfl⟩

/-! ### Claim C7 -/

/-- Claim C7 (code bug): the update-instructions command of main.py
calls `prompt_agent.improve_agent_prompt`, whose body evaluates the
undefined name `chain`, so every invocation — whatever the scored file
holds — raises NameError before reading any input, never rewrites the
instruction file, and never reports success. -/
theorem update_prompt_raises_nameerror :
    (∀ (g : String) (d : Option String) (pr : String),
      run_prompt_update g d pr = .error (.nameError "chain")) ∧
    run_prompt_update "data/scored/generated_scored_articles_2025-05-01.json" none
      "config/agent_prompt.txt" = .error (.nameError "chain") :=
  ⟨fun _ _ _ => rfl, rfl⟩

/-! ### Claim C8 -/

/-- Claim C8: the aggregator keeps exactly the records carrying both
`user_score` and `user_reasoning` whose score coerces to a number —
a non-coercible score excludes the record from both the mean and the
feedback document — renders the mean with two decimals and one line
per surviving record, "Score: <one-decimal> - <reasoning>", in input
order; on scores 6, 8 and non-numeric "x" the mean is 7.00 and only
the two numeric records appear. -/
theorem aggregation_math (l : List PyDict) :
    (extractFeedback l).1 = l.filterMap (fun a => (feedbackOf a).map (·.1)) ∧
    (extractFeedback l).2 = l.filterMap (fun a => (feedbackOf a).map (·.2)) ∧
    (extractFeedback feedbackExample).1 = [6, 8] ∧
    avgScore (extractFeedback feedbackExample).1 = 7 ∧
    formatFixed (avgScore (extractFeedback feedbackExample).1) 2 = "7.00" ∧
    (extractFeedback feedbackExample).2 =
      ["Score: 6.0 - too vague", "Score: 8.0 - timely"] ∧
    feedbackSection feedbackExample =
      "\n\n=== Human Feedback Integration ===\nAverage Human Score: 7.00\n"
        ++ "Detailed Feedback:\nScore: 6.0 - too vague\nScore: 8.0 - timely\n" := by
  have h1 : (extractFeedback feedbackExample).1 = [6, 8] := rfl
  have h2 : (extractFeedback feedbackExample).2 =
      [scoreLine 6 (JValue.jstr "too vague"), scoreLine 8 (JValue.jstr "timely")] := rfl
  have hline6 : scoreLine 6 (JValue.jstr "too vague") = "Score: 6.0 - too vague" := by
    simp only [scoreLine, reasonText, formatFixed_six]
    rfl
  have hline8 : scoreLine 8 (JValue.jstr "timely") = "Score: 8.0 - timely" := by
    simp only [scoreLine, reasonText, formatFixed_eight]
    rfl
  refine ⟨(extractFeedback_eq_filterMap l).1, (extractFeedback_eq_filterMap l).2, h1, ?_, ?_, ?_, ?_⟩
  · rw [h1, avgScore_six_eight]
  · rw [h1, avgScore_six_eight, formatFixed_seven]
  · rw [h2, hline6, hline8]
  · simp only [feedbackSection, h1, h2, avgScore_six_eight, formatFixed_seven, hline6, hline8]
    rfl

/-! ### Claim C9 -/

/-- Counterexample to C9 as stated: a completed two-record scoring run
reads the instruction file twice, not once — `get_agent_prompt` is
called inside `get_agent_action`, once per record. -/
theorem prompt_read_once_cex :
    (run_simulation fsTwoRaw true (fun _ => "\x7b\x7d") rawPath scoredPath).promptReads = 2 ∧
    (2 : Nat) ≠ 1 :=
  ⟨rfl, by decide⟩

/-- Claim C9 (amended): the instruction document is read once per
evaluator invocation, not once per run: a completed N-record run reads
it N times when the file exists and never when it does not, and in every
run (completed or aborted) the number of reads equals the number of
evaluator calls when the file exists, else zero. -/
theorem prompt_reads_per_record (fs : FS) (responses : Nat → String)
    (inp out : String) (articles : List PyDict)
    (hout : fs out = none) (hin : fs inp = some articles) (hne : articles ≠ [])
    (hsafe : ∀ i < articles.length, parsesToDict (responses i)) :
    (run_simulation fs true responses inp out).promptReads = articles.length ∧
    (run_simulation fs false responses inp out).promptReads = 0 ∧
    (∀ (fs' : FS) (p' : Bool) (r' : Nat → String) (i' o' : String),
      (run_simulation fs' p' r' i' o').promptReads =
        if p' then (run_simulation fs' p' r' i' o').evalCalls else 0) := by
  refine ⟨?_, ?_, fun fs' p' r' i' o' => run_simulation_reads_per_call fs' p' r' i' o'⟩
  · rw [run_simulation_complete fs true responses inp out articles hout hin hne hsafe]
    rfl
  · rw [run_simulation_complete fs false responses inp out articles hout hin hne hsafe]
    rfl

/-- Witness for C9 (amended) on the two-record store. -/
theorem prompt_reads_per_record_witness :
    (run_simulation fsTwoRaw true (fun _ => "\x7b\x7d") rawPath scoredPath).promptReads = 2 := by
  have h := (prompt_reads_per_record fsTwoRaw (fun _ => "\x7b\x7d") rawPath scoredPath
    [[], []] rfl rfl (List.cons_ne_nil _ _) (fun _ _ => ⟨[], rfl⟩)).1
  simpa using h

/-! ### Claim C10 -/

/-- Claim C10: a successful news-source response yields at most 10
records — exactly the first 10 features processed in order — whatever
`maxrecords` value was supplied in the query configuration (the cap only
parameterises the outbound request, not the slicing). -/
theorem fetch_first_ten (mr mr' : JValue) (features extra : List Feature) :
    (fetch_gdelt_articles mr (some features)).length ≤ 10 ∧
    (fetch_gdelt_articles mr (some features)).length = min 10 features.length ∧
    fetch_gdelt_articles mr (some features) = fetch_gdelt_articles mr' (some features) ∧
    (∀ i : Nat, (fetch_gdelt_articles mr (some features))[i]? =
      ((features.take 10)[i]?).map processFeature) ∧
    (10 ≤ features.length →
      fetch_gdelt_articles mr (some (features ++ extra)) =
        fetch_gdelt_articles mr (some features)) := by
  refine ⟨?_, ?_, rfl, ?_, ?_⟩
  · simp [fetch_gdelt_articles]
  · simp [fetch_gdelt_articles]
  · intro i
    simp only [fetch_gdelt_articles, List.getElem?_map]
  · intro h
    simp [fetch_gdelt_articles, List.take_append_eq_append_take, Nat.sub_eq_zero_of_le h]

/-- Witness for C10: with exactly 10 features, appending an extra
feature leaves the processed output unchanged. -/
theorem fetch_first_ten_witness :
    fetch_gdelt_articles .jnull (some (tenFeatures ++ [emptyFeature])) =
      fetch_gdelt_articles .jnull (some tenFeatures) :=
  (fetch_first_ten .jnull .jnull tenFeatures [emptyFeature]).2.2.2.2
    (by simp [tenFeatures])

end Enviroagent
